import Mathlib

/-!
Shallow embedding of the seal_solver job-control layer
(src/main.py, src/utils/julia_runner_thread.py) and proofs about it.

Python strings are modelled as lists of characters (`Str`), Python dicts as
association lists with unique keys maintained by the dict operations, and
fallible Python code as `Except PyError`.
-/

set_option autoImplicit false

/-- Python strings, modelled as lists of characters. -/
abbrev Str := List Char

/-- Accumulator worker for `splitOn`.  Mirrors Python `str.split(sep)` for a
one-character separator: every occurrence of the separator ends a segment, and
the result always has one more segment than there are separators. -/
def splitOnAux (c : Char) : Str → Str → List Str
  | [], acc => [acc.reverse]
  | x :: xs, acc =>
    if x = c then acc.reverse :: splitOnAux c xs []
    else splitOnAux c xs (x :: acc)

/-- Python `s.split(c)` for a single-character separator `c`. -/
def splitOn (c : Char) (s : Str) : List Str := splitOnAux c s []

/-- The whitespace characters stripped by Python `str.strip()`. -/
def isPySpace (c : Char) : Bool :=
  c = ' ' || c = '\t' || c = '\n' || c = '\x0b' || c = '\x0c' || c = '\r'

/-- Python `s.strip()`: drop leading and trailing whitespace. -/
def pyStrip (s : Str) : Str :=
  ((s.dropWhile isPySpace).reverse.dropWhile isPySpace).reverse

/-- Number of occurrences of the character `c` in `s`. -/
def countC (c : Char) : Str → Nat
  | [] => 0
  | x :: xs => (if x = c then 1 else 0) + countC c xs

/-- Python `",".join(l)`: join a list of strings with the comma separator. -/
def joinComma : List Str → Str
  | [] => []
  | [s] => s
  | s :: rest => s ++ ',' :: joinComma rest

/-- Python exceptions that the embedded code can raise. -/
inductive PyError
  /-- `Exception(f'Poorly formed data; ...')` raised on a segment without `=`;
  carries the offending (stripped) segment that the message interpolates. -/
  | poorlyFormed (pair : Str)
  /-- `ValueError` from unpacking `key, value = pair.split("=")` when the split
  does not yield exactly two parts. -/
  | valueError
  /-- `TypeError`, e.g. from `len(x)` on an object with no `__len__`, or from
  emitting a Qt signal with the wrong number of arguments. -/
  | typeError
  /-- `KeyError` from `dict.pop(key)` on a missing key. -/
  | keyError (k : Option Str)
  /-- `IndexError` from indexing a sequence out of range. -/
  | indexError
  /-- A generic `Exception(msg)`. -/
  | exc (msg : Str)
  /-- `raise Exception(e)` re-wrapping a previously caught error object. -/
  | reraised (e : PyError)
deriving DecidableEq

/-- Decidable equality for `Except`, so that concrete runs of the embedded
fallible code can be checked by `decide`. -/
instance {ε α : Type} [DecidableEq ε] [DecidableEq α] : DecidableEq (Except ε α) :=
  fun a b =>
    match a, b with
    | .ok x, .ok y =>
      if h : x = y then .isTrue (by rw [h])
      else .isFalse (fun hh => h (Except.ok.inj hh))
    | .error x, .error y =>
      if h : x = y then .isTrue (by rw [h])
      else .isFalse (fun hh => h (Except.error.inj hh))
    | .ok _, .error _ => .isFalse (fun hh => Except.noConfusion hh)
    | .error _, .ok _ => .isFalse (fun hh => Except.noConfusion hh)

/-- Python objects, as far as the embedded code inspects them: strings, ints,
bools, `None`, opaque solver arrays, and lists.  The embedded code only ever
takes `len()` of a list object it has not built itself, so a list is
abstracted to its length; solver result arrays are opaque handles. -/
inductive PyObj
  | str (s : Str)
  | int (n : Int)
  | bool (b : Bool)
  | noneObj
  | listObj (len : Nat)
  | arrObj (handle : Nat)
deriving DecidableEq

/-- Python `len(x)`: defined for sized objects, a `TypeError` otherwise. -/
def pyLen : PyObj → Except PyError Nat
  | .str s => .ok s.length
  | .listObj n => .ok n
  | _ => .error .typeError

/-- Python `isinstance(x, str)`. -/
def isStrObj : PyObj → Bool
  | .str _ => true
  | _ => false

/-- Rendering of `type(x)` as interpolated into the diagnostic f-string. -/
def pyTypeName : PyObj → Str
  | .str _ => ("<class 'str'>").data
  | .int _ => ("<class 'int'>").data
  | .bool _ => ("<class 'bool'>").data
  | .noneObj => ("<class 'NoneType'>").data
  | .listObj _ => ("<class 'list'>").data
  | .arrObj _ => ("<class 'numpy.ndarray'>").data

/-- Computation rule for `Except` bind on a success value, used to evaluate
the worker's result-collection chain. -/
theorem except_bind_ok {ε α β : Type} (a : α) (f : α → Except ε β) :
    (Except.ok a : Except ε α) >>= f = f a := rfl

/-- Python `lst[i]`: `IndexError` when out of range. -/
def listGet (l : List PyObj) (i : Nat) : Except PyError PyObj :=
  match l.get? i with
  | some x => .ok x
  | none => .error .indexError

/-- Lookup in a Python dict modelled as an association list
(`d.get(a)` / `d[a]`-style first-match lookup). -/
def dictGet {α β : Type} [DecidableEq α] : List (α × β) → α → Option β
  | [], _ => none
  | (k, v) :: rest, a => if k = a then some v else dictGet rest a

/-- Python `d.update({a: b})` / `d[a] = b`: replace the binding in place when
the key is present, append it otherwise. -/
def dictUpdate {α β : Type} [DecidableEq α] : List (α × β) → α → β → List (α × β)
  | [], a, b => [(a, b)]
  | (k, v) :: rest, a, b =>
    if k = a then (a, b) :: rest else (k, v) :: dictUpdate rest a b

/-- Python `d.pop(a)`'s effect on the dict: remove the first binding of `a`
(the only one, for a genuine dict). -/
def dictPop {α β : Type} [DecidableEq α] : List (α × β) → α → List (α × β)
  | [], _ => []
  | (k, v) :: rest, a => if k = a then rest else (k, v) :: dictPop rest a

/-- The keys of a dict, in insertion order. -/
def dictKeys {α β : Type} (d : List (α × β)) : List α := d.map Prod.fst

/-- A decoded wire-protocol value: a scalar string, or a list of strings when
the wire form contained commas. -/
inductive Value
  | str (s : Str)
  | list (l : List Str)
deriving DecidableEq

/-- A decoded Message: string keys mapped to scalar-or-list values, in
insertion order (a Python dict). -/
abbrev Message := List (Str × Value)

/-- From `Communicator.__parseInput` (src/main.py lines 176-177): a value
containing a comma is split into a list, all other values stay scalar. -/
def mkValue (v : Str) : Value :=
  if ',' ∈ v then .list (splitOn ',' v) else .str v

/-- The `for pair in keyValuePairs` loop body of `Communicator.__parseInput`
(src/main.py lines 165-179): strip each segment, skip empty ones, raise on a
segment without `=`, unpack `key, value = pair.split("=")` (a `ValueError`
unless the split has exactly two parts), and `res.update({key: value})`. -/
def parseLoop : List Str → Message → Except PyError Message
  | [], res => .ok res
  | seg :: rest, res =>
    let pair := pyStrip seg
    if pair.length = 0 then parseLoop rest res
    else if '=' ∉ pair then .error (.poorlyFormed pair)
    else
      match splitOn '=' pair with
      | [key, value] => parseLoop rest (dictUpdate res key (mkValue value))
      | _ => .error .valueError

/-- From `Communicator.__parseInput` (src/main.py lines 149-181), on an
arbitrary Python object.  Returns the `[MSG]` stdout diagnostics emitted and
the result (raised exceptions as `Except.error`).  Note the source calls
`len(data)` before the `isinstance(data, str)` guard. -/
def parseInputObj (data : PyObj) : List Str × Except PyError Message :=
  match pyLen data with
  | .error e => ([], .error e)
  | .ok n =>
    if n = 0 then
      ([("[MSG]: empty string was passed, returning.").data], .ok [])
    else
      match data with
      | .str s => ([], parseLoop (splitOn ';' s) [])
      | other =>
        ([("[MSG]: Data with type '").data ++ pyTypeName other ++
          ("' was passed instead of 'str'.").data], .ok [])

/-- `Communicator.__parseInput` applied to an actual string, the only way the
code itself calls it. -/
def parseInput (data : Str) : List Str × Except PyError Message :=
  parseInputObj (.str data)

/-- From `JuliaSolver.__logData.appendKeyValuePair` (src/main.py lines
360-363): append `key=value;`, rendering a missing value as `none`. -/
def appendKeyValuePair (basePair : Str) (key : Str) (value : Option Str) : Str :=
  basePair ++ key ++ '=' :: (value.getD (("none").data)) ++ [';']

/-- Python `str(b).lower()` for a bool, as used by `__logData`. -/
def pyBoolStr (b : Bool) : Str := if b then ("true").data else ("false").data

/-- From `JuliaSolver.__logData` (src/main.py lines 353-370): the fixed
four-field status envelope `failed=..;text=..;log=..;pid=..;`. -/
def logDataLine (failed : Bool) (text : Option Str) (log : Bool)
    (thread_id : Option Str) : Str :=
  appendKeyValuePair
    (appendKeyValuePair
      (appendKeyValuePair
        (appendKeyValuePair [] (("failed").data) (some (pyBoolStr failed)))
        (("text").data) text)
      (("log").data) (some (pyBoolStr log)))
    (("pid").data) thread_id

/-- Encoding of a single value for the wire: a scalar is the literal string; a
list value is comma-joined.  The scalar case is the `f"{key}={value};"`
pattern of `__logData`; the list case is modelled from the spec's Encode
("value is the literal string, or a comma-joined list"), which no code under
src/ exercises. -/
def encodeValue : Value → Str
  | .str s => s
  | .list l => joinComma l

/-- Encode one key/value pair as `key=value;`. -/
def encodePair (p : Str × Value) : Str :=
  p.1 ++ '=' :: encodeValue p.2 ++ [';']

/-- Encode a whole Message, one `key=value;` group per pair, in order. -/
def encode (m : Message) : Str :=
  (m.map encodePair).flatten

/-! ## Communicator (src/main.py, class Communicator) -/

/-- Outcomes of the environment-dependent socket operations that
`Communicator.start` / `Communicator.stop` perform: whether each
`waitForConnected(1000)` / `isValid()` call succeeds, together with the
`[error()] errorString()` text each socket would report. -/
structure CommEnv where
  writeConnectOk : Bool
  readConnectOk : Bool
  writeErrText : Str
  readErrText : Str
  readValidOk : Bool
  writeValidOk : Bool
deriving DecidableEq

/-- Observable events emitted by the Communicator: its `stderr`, `stdout`,
`started` and `stopped` signals. -/
inductive CommEvent
  | stderrEv (m : Str)
  | stdoutEv (m : Str)
  | startedEv
  | stoppedEv
deriving DecidableEq

/-- From `Communicator.__testConnections` (src/main.py lines 110-123):
`waitForConnected(1000)` on the write socket then on the read socket,
accumulating a failure message, returning `(s1 and s2, m)`. -/
def testConnections (env : CommEnv) : Bool × Str :=
  let m1 : Str :=
    if env.writeConnectOk then []
    else ("Write Socket Failed to connect: ").data ++ env.writeErrText
  let m2 : Str :=
    if env.readConnectOk then m1
    else m1 ++ ("\n---\n").data ++
      ("Read Socket Failed to Connect: ").data ++ env.readErrText
  (env.writeConnectOk && env.readConnectOk, m2)

/-- From `Communicator.__testSocketValidity` (src/main.py lines 104-108):
`readSocket.isValid() and writeSocket.isValid()`. -/
def testSocketValidity (env : CommEnv) : Bool :=
  env.readValidOk && env.writeValidOk

/-- From `Communicator.start` (src/main.py lines 58-83).  Returns the final
`isActive` flag (it was `False` on entry, per `__init__`) and the events
emitted, in order.  `configure()` and `prime()` only wire Qt slots and issue
the connect requests whose outcomes `env` records, so they emit nothing
here. -/
def commStart (env : CommEnv) : Bool × List CommEvent :=
  let conn := testConnections env
  let ev1 : List CommEvent :=
    if conn.1 then []
    else [.stderrEv
      (("Failed to start connector, Sockets not properly primed.\n").data ++
        conn.2)]
  if testSocketValidity env = false then
    (false, ev1 ++ [.stderrEv (("Sockets Failed Validity Test").data)])
  else
    (true, ev1 ++ [.stdoutEv (("Communicator Primed").data), .startedEv])

/-- Outcomes of the `waitForDisconnected(1000)` calls made by
`Communicator.stop`, with each socket's error text. -/
structure StopEnv where
  writeDiscOk : Bool
  readDiscOk : Bool
  writeErrText : Str
  readErrText : Str
deriving DecidableEq

/-- From `Communicator.__testDisconnections` (src/main.py lines 125-138). -/
def testDisconnections (env : StopEnv) : Bool × Str :=
  let m1 : Str :=
    if env.writeDiscOk then []
    else ("Write Socket Failed to disconnect: ").data ++ env.writeErrText
  let m2 : Str :=
    if env.readDiscOk then m1
    else m1 ++ ("\n---\n").data ++
      ("Read Socket Failed to disconnect: ").data ++ env.readErrText
  (env.writeDiscOk && env.readDiscOk, m2)

/-- PySide6 signal-emission arity rule: a `Signal(object)` is declared with
exactly one payload slot, and `emit` called with a different number of
arguments raises `TypeError`. -/
def signalEmitArity (declared : Nat) (given : Nat) : Except PyError Unit :=
  if given = declared then .ok () else .error .typeError

/-- From `Communicator.stop` (src/main.py lines 85-98).  `isActive` is the
flag's value on entry.  On a confirmed disconnect it emits the stdout line,
`stopped`, and clears the flag.  Otherwise the source executes
`self.stderr.emit("Failed to disconnect sockets: \n", error)` — two arguments
to the one-argument `stderr = Signal(object)` — modelled by
`signalEmitArity 1 2`. -/
def commStop (isActive : Bool) (env : StopEnv) :
    Except PyError (Bool × List CommEvent) :=
  let d := testDisconnections env
  if d.1 then
    .ok (false, [.stdoutEv (("Sockets disconnected").data), .stoppedEv])
  else
    match signalEmitArity 1 2 with
    | .ok _ =>
      .ok (isActive,
        [.stderrEv (("Failed to disconnect sockets: \n").data ++ d.2)])
    | .error e => .error e

/-! ## Worker execution unit (src/utils/julia_runner_thread.py) -/

/-- Array data as persisted by the worker: either one of the opaque solver
result objects saved as-is, or the combined record built by
`np.array([[res[7], res[8], res[9], t]])`. -/
inductive ArrayData
  | raw (x : PyObj)
  | mesh (zMD nphi nxi t : PyObj)
deriving DecidableEq

/-- Observable behaviour of one `JuliaWorkerThread.run` call: `print(...)`
calls and `stderr` signal emissions, in order. -/
inductive WorkerEvent
  | printed (pid : Str) (msg : Str)
  | stderrSig (pid : Str) (e : PyError)
deriving DecidableEq

/-- Environment of one `JuliaWorkerThread.run` call: its two path parameters,
which filesystem paths exist, and the external solver's behaviour (its result
tuple, or the exception it raises).  `elapsed` stands for the opaque float
`et - st`. -/
structure WorkerEnv where
  inDir : Str
  outDir : Str
  existing : List Str
  solverErr : Option PyError
  solverRes : List PyObj
  elapsed : PyObj
deriving DecidableEq

/-- `os.path.join(d, f)` for the worker's one-component joins. -/
def joinPath (d : Str) (f : Str) : Str := d ++ '/' :: f

/-- The `DATA` dict of `JuliaWorkerThread.run` (src/utils/julia_runner_thread.py
lines 58-67), given the ten accessed components of the solver result and the
elapsed time. -/
def workerData (r0 r1 r2 r3 r4 r5 r6 r7 r8 r9 t : PyObj) :
    List (Str × ArrayData) :=
  [(("c_save").data, .raw r0), (("t_save").data, .raw r1),
   (("w_save").data, .raw r2), (("v_save").data, .raw r3),
   (("regime_save").data, .raw r4), (("PSI_save").data, .raw r5),
   (("p_save").data, .raw r6), (("mesh_config").data, .mesh r7 r8 r9 t)]

/-- From `JuliaWorkerThread.run` (src/utils/julia_runner_thread.py lines
36-84).  Returns the `(path, data)` pairs passed to `np.save` and the events
emitted; everything inside the `try` block that raises is caught and
surfaced as one `stderr` emission carrying `(pid, e)`. -/
def workerRun (env : WorkerEnv) (pid : Str) :
    List (Str × ArrayData) × List WorkerEvent :=
  if env.inDir ∉ env.existing then
    ([], [.stderrSig pid (.exc (("Path ").data ++ env.inDir ++
      (" does not exists").data))])
  else if env.outDir ∉ env.existing then
    ([], [.stderrSig pid (.exc (("Path ").data ++ env.outDir ++
      (" does not exists").data))])
  else
    let ev0 : List WorkerEvent :=
      [.printed pid (("Working...").data), .printed pid (("Priming Solver").data)]
    match env.solverErr with
    | some e => ([], ev0 ++ [.stderrSig pid e])
    | none =>
      let r : Except PyError (List (Str × ArrayData)) := do
        let r0 ← listGet env.solverRes 0
        let r1 ← listGet env.solverRes 1
        let r2 ← listGet env.solverRes 2
        let r3 ← listGet env.solverRes 3
        let r4 ← listGet env.solverRes 4
        let r5 ← listGet env.solverRes 5
        let r6 ← listGet env.solverRes 6
        let r7 ← listGet env.solverRes 7
        let r8 ← listGet env.solverRes 8
        let r9 ← listGet env.solverRes 9
        pure (workerData r0 r1 r2 r3 r4 r5 r6 r7 r8 r9 env.elapsed)
      let ev1 : List WorkerEvent :=
        ev0 ++ [.printed pid (("[STATUS]: Computation Completed").data),
                .printed pid (("[STATUS]: Collecting Results").data)]
      match r with
      | .error e => ([], ev1 ++ [.stderrSig pid e])
      | .ok entries =>
        (entries.map (fun kv =>
          (joinPath env.outDir (kv.1 ++ (".npy").data), kv.2)),
         ev1 ++ [.printed pid (("[STATUS]: Results written to target files").data),
                 .printed pid (("action=completed").data)])

/-! ## Job registry / supervisor (src/main.py, class JuliaSolver) -/

/-- Job ids as the supervisor receives them: `data.get("pid")` is `None` when
the key is absent, a string otherwise. -/
abbrev Pid := Option Str

/-- A registered worker thread object: an opaque handle identifying the
Python object, and the thread's `__pid` (`JuliaWorkerThread.__init__`,
src/utils/julia_runner_thread.py lines 17-22: the constructor argument, or a
generated uuid when that argument is `None`). -/
structure Worker where
  handle : Nat
  wpid : Str
deriving DecidableEq

/-- Model of `str(uuid4())` for the worker whose creation counter is `n`:
a fresh opaque string.  Freshness with respect to already-registered string
ids is a hypothesis where a theorem needs it. -/
def genPid (n : Nat) : Str := ("uuid-").data ++ Nat.toDigits 10 n

/-- The payload of the worker's `threadFinished` / `threadStarted` signals:
`self.__pid` (src/utils/julia_runner_thread.py lines 27-31). -/
def threadSignalPid (w : Worker) : Str := w.wpid

/-- Registry-level actions of the supervisor, recorded in order: removal of a
registry entry, `thread.terminate()`, and registration of a new thread. -/
inductive SupAction
  | removeJob (tid : Pid)
  | terminateJob (handle : Nat)
  | registerJob (tid : Pid) (handle : Nat)
deriving DecidableEq

/-- State of the `JuliaSolver` supervisor: the `__threads` registry, a counter
supplying fresh thread handles, the handles that received `terminate()` and
`deleteLater()`, the registry-level action trace, and the `__logData` status
lines sent, in order. -/
structure SupState where
  threads : List (Pid × Worker)
  nextHandle : Nat
  terminated : List Nat
  deleted : List Nat
  trace : List SupAction
  log : List Str
deriving DecidableEq

/-- The supervisor's initial state: an empty registry. -/
def initSup : SupState :=
  { threads := [], nextHandle := 0, terminated := [], deleted := [],
    trace := [], log := [] }

/-- Rendering of a `Pid` inside an f-string (`None` prints as `None`). -/
def pidRepr : Pid → Str
  | none => ("None").data
  | some s => s

/-- The warning line `__killThread` logs for an unknown id
(src/main.py line 386). -/
def killWarnText (tid : Pid) : Str :=
  ("[WARNING] Thread with id '").data ++ pidRepr tid ++
    ("', does not exists").data

/-- From `JuliaSolver.__killThread` (src/main.py lines 372-391): an unknown id
logs one warning and returns; a known id is popped from the registry,
terminated, and a confirmation is logged. -/
def killThread (st : SupState) (tid : Pid) : SupState :=
  match dictGet st.threads tid with
  | none =>
    { st with log := st.log ++ [logDataLine false (some (killWarnText tid)) true tid] }
  | some w =>
    { st with
        threads := dictPop st.threads tid,
        terminated := st.terminated ++ [w.handle],
        trace := st.trace ++ [.removeJob tid, .terminateJob w.handle],
        log := st.log ++ [logDataLine false
          (some (("[ACTION] Thread<").data ++ pidRepr tid ++
            ("> Terminated").data)) true tid] }

/-- From `JuliaSolver.__spawnThread` (src/main.py lines 393-414): log the
spawn action; if the id is already registered, log the override warning and
`__killThread` the incumbent; construct the `JuliaWorkerThread` (whose `__pid`
falls back to a generated uuid when `thread_id` is `None`), register it with
`update`, and run it. -/
def spawnThread (st : SupState) (tid : Pid) : SupState :=
  let st1 := { st with
    log := st.log ++ [logDataLine false
      (some (("[ACTION] Spawning Thread").data)) true none] }
  let st2 :=
    if tid ∈ dictKeys st1.threads then
      killThread { st1 with
        log := st1.log ++ [logDataLine false
          (some (("[WARNING] Thread with id '").data ++ pidRepr tid ++
            ("' already exist. Original thread will be killed and overridden").data))
          true tid] } tid
    else st1
  let w : Worker := { handle := st2.nextHandle,
                      wpid := tid.getD (genPid st2.nextHandle) }
  { st2 with
      threads := dictUpdate st2.threads tid w,
      nextHandle := st2.nextHandle + 1,
      trace := st2.trace ++ [.registerJob tid w.handle] }

/-- The success line `__handleThreadFinished` logs (src/main.py line 317). -/
def finText (pid : Str) : Str :=
  ("thread with pid: <").data ++ pid ++ ("> finished successfully").data

/-- From `JuliaSolver.__handleThreadFinished` (src/main.py lines 312-321):
log the success line; if the pid (a string, compared against the registry
keys) is not registered, return; otherwise pop the entry and `deleteLater()`
the thread. -/
def handleThreadFinished (st : SupState) (pid : Str) : SupState :=
  let st1 := { st with
    log := st.log ++ [logDataLine false (some (finText pid)) true (some pid)] }
  match dictGet st1.threads (some pid) with
  | none => st1
  | some w =>
    { st1 with
        threads := dictPop st1.threads (some pid),
        deleted := st1.deleted ++ [w.handle],
        trace := st1.trace ++ [.removeJob (some pid)] }

/-- From `JuliaSolver.__handleThreadError` (src/main.py lines 330-339):
`self.__threads.pop(pid)` — a `KeyError` when the pid is not registered —
then `deleteLater()`, the failure log line, and an unconditional
`raise Exception(e)`.  Returns the state as mutated before the raise together
with the exception that propagates. -/
def handleThreadError (st : SupState) (pid : Str) (e : PyError) :
    SupState × Except PyError Unit :=
  match dictGet st.threads (some pid) with
  | none => (st, .error (.keyError (some pid)))
  | some w =>
    ({ st with
        threads := dictPop st.threads (some pid),
        deleted := st.deleted ++ [w.handle],
        trace := st.trace ++ [.removeJob (some pid)],
        log := st.log ++ [logDataLine true
          (some (("[ERROR] Thread with id: '").data ++ pid ++
            ("' failed. Error below").data)) true (some pid)] },
     .error (.reraised e))

/-- The registry-mutating operations a command/event sequence can drive:
a `start` command (`__spawnThread`), a `kill` command (`__killThread`), and a
worker `finished` event (`__handleThreadFinished`). -/
inductive SupOp
  | start (tid : Pid)
  | kill (tid : Pid)
  | finish (pid : Str)
deriving DecidableEq

/-- One supervisor step. -/
def stepSup (st : SupState) : SupOp → SupState
  | .start tid => spawnThread st tid
  | .kill tid => killThread st tid
  | .finish pid => handleThreadFinished st pid

/-- Run a sequence of operations from a given state. -/
def runOps (st : SupState) (ops : List SupOp) : SupState :=
  ops.foldl stepSup st

/-! ## Lemmas about the string primitives -/

theorem splitOnAux_of_forall_ne (c : Char) (s : Str) (acc : Str)
    (h : ∀ x ∈ s, x ≠ c) : splitOnAux c s acc = [acc.reverse ++ s] := by
  induction s generalizing acc with
  | nil => simp [splitOnAux]
  | cons x xs ih =>
    have hx : x ≠ c := h x (by simp)
    simp only [splitOnAux, if_neg hx]
    rw [ih _ (fun y hy => h y (by simp [hy]))]
    simp

theorem splitOn_of_not_mem {c : Char} {s : Str} (h : c ∉ s) :
    splitOn c s = [s] := by
  have := splitOnAux_of_forall_ne c s [] (fun x hx hxc => h (hxc ▸ hx))
  simpa [splitOn] using this

theorem splitOnAux_append (c : Char) (xs ys : Str) (acc : Str)
    (h : ∀ x ∈ xs, x ≠ c) :
    splitOnAux c (xs ++ c :: ys) acc = (acc.reverse ++ xs) :: splitOn c ys := by
  induction xs generalizing acc with
  | nil => simp [splitOnAux, splitOn]
  | cons x xs ih =>
    have hx : x ≠ c := h x (by simp)
    simp only [List.cons_append, splitOnAux, if_neg hx, List.append_eq]
    rw [ih _ (fun y hy => h y (by simp [hy]))]
    simp

theorem splitOn_append {c : Char} {xs : Str} (ys : Str) (h : c ∉ xs) :
    splitOn c (xs ++ c :: ys) = xs :: splitOn c ys := by
  have := splitOnAux_append c xs ys [] (fun x hx hxc => h (hxc ▸ hx))
  simpa [splitOn] using this

theorem countC_eq_zero {c : Char} {s : Str} : countC c s = 0 ↔ c ∉ s := by
  induction s with
  | nil => simp [countC]
  | cons x xs ih =>
    by_cases hx : x = c
    · subst hx; simp [countC]
    · simp [countC, hx, ih, Ne.symm hx]

theorem splitOnAux_length (c : Char) (s : Str) (acc : Str) :
    (splitOnAux c s acc).length = countC c s + 1 := by
  induction s generalizing acc with
  | nil => simp [splitOnAux, countC]
  | cons x xs ih =>
    by_cases hx : x = c
    · simp [splitOnAux, hx, countC, ih]
      omega
    · simp [splitOnAux, hx, countC, ih]

theorem splitOn_length (c : Char) (s : Str) :
    (splitOn c s).length = countC c s + 1 :=
  splitOnAux_length c s []

/-- The head of a string is not whitespace (vacuously true of the empty
string). -/
def headOk (s : Str) : Bool :=
  match s with
  | [] => true
  | c :: _ => !isPySpace c

/-- The last character of a string is not whitespace. -/
def lastOk (s : Str) : Bool := headOk s.reverse

theorem dropWhile_eq_self_of_headOk {s : Str} (h : headOk s = true) :
    s.dropWhile isPySpace = s := by
  cases s with
  | nil => rfl
  | cons c t =>
    have : isPySpace c = false := by
      simpa [headOk] using h
    simp [List.dropWhile, this]

theorem pyStrip_eq_self {s : Str} (h1 : headOk s = true) (h2 : lastOk s = true) :
    pyStrip s = s := by
  unfold pyStrip
  rw [dropWhile_eq_self_of_headOk h1, dropWhile_eq_self_of_headOk h2,
    List.reverse_reverse]

theorem joinComma_cons_cons (x y : Str) (rest : List Str) :
    joinComma (x :: y :: rest) = x ++ ',' :: joinComma (y :: rest) := rfl

theorem mem_joinComma {c : Char} {l : List Str} (h : c ∈ joinComma l) :
    c = ',' ∨ ∃ s ∈ l, c ∈ s := by
  induction l with
  | nil => simp [joinComma] at h
  | cons x xs ih =>
    cases xs with
    | nil =>
      simp only [joinComma] at h
      exact Or.inr ⟨x, by simp, h⟩
    | cons y rest =>
      rw [joinComma_cons_cons] at h
      rcases List.mem_append.mp h with hx | hx
      · exact Or.inr ⟨x, by simp, hx⟩
      · rcases List.mem_cons.mp hx with hc | hc
        · exact Or.inl hc
        · rcases ih hc with hc' | ⟨s, hs, hcs⟩
          · exact Or.inl hc'
          · exact Or.inr ⟨s, by simp [hs], hcs⟩

theorem comma_mem_joinComma {l : List Str} (h : 2 ≤ l.length) :
    ',' ∈ joinComma l := by
  match l, h with
  | x :: y :: rest, _ =>
    rw [joinComma_cons_cons]
    exact List.mem_append.mpr (Or.inr (by simp))

theorem splitOn_joinComma {l : List Str} (hne : l ≠ [])
    (h : ∀ s ∈ l, ',' ∉ s) : splitOn ',' (joinComma l) = l := by
  induction l with
  | nil => exact absurd rfl hne
  | cons x xs ih =>
    cases xs with
    | nil => simpa [joinComma] using splitOn_of_not_mem (h x (by simp))
    | cons y rest =>
      rw [joinComma_cons_cons, splitOn_append _ (h x (by simp))]
      rw [ih (by simp) (fun s hs => h s (by simp [hs]))]

/-! ## Lemmas about the dict model -/

theorem dictGet_eq_none_iff {α β : Type} [DecidableEq α]
    {d : List (α × β)} {a : α} : dictGet d a = none ↔ a ∉ dictKeys d := by
  induction d with
  | nil => simp [dictGet, dictKeys]
  | cons p rest ih =>
    obtain ⟨k, v⟩ := p
    by_cases hk : k = a
    · subst hk; simp [dictGet, dictKeys]
    · simp [dictGet, dictKeys, hk, ih, Ne.symm hk]

theorem mem_dictKeys_of_dictGet {α β : Type} [DecidableEq α]
    {d : List (α × β)} {a : α} {b : β} (h : dictGet d a = some b) :
    a ∈ dictKeys d := by
  by_contra hcon
  rw [← dictGet_eq_none_iff] at hcon
  rw [h] at hcon
  exact Option.noConfusion hcon

theorem dictGet_dictUpdate_self {α β : Type} [DecidableEq α]
    (d : List (α × β)) (a : α) (b : β) :
    dictGet (dictUpdate d a b) a = some b := by
  induction d with
  | nil => simp [dictUpdate, dictGet]
  | cons p rest ih =>
    obtain ⟨k, v⟩ := p
    by_cases hk : k = a
    · simp [dictUpdate, dictGet, hk]
    · simp [dictUpdate, dictGet, hk, ih]

theorem dictGet_dictPop_ne {α β : Type} [DecidableEq α]
    {d : List (α × β)} {a a' : α} (h : a ≠ a') :
    dictGet (dictPop d a') a = dictGet d a := by
  induction d with
  | nil => simp [dictPop]
  | cons p rest ih =>
    obtain ⟨k, v⟩ := p
    by_cases hk : k = a'
    · subst hk
      simp [dictPop, dictGet, Ne.symm h]
    · by_cases hka : k = a
      · simp [dictPop, dictGet, hk, hka, h]
      · simp [dictPop, dictGet, hk, hka, ih]

theorem dictGet_dictPop_self {α β : Type} [DecidableEq α]
    {d : List (α × β)} {a : α} (h : (dictKeys d).Nodup) :
    dictGet (dictPop d a) a = none := by
  induction d with
  | nil => simp [dictPop, dictGet]
  | cons p rest ih =>
    obtain ⟨k, v⟩ := p
    rw [dictKeys, List.map_cons, List.nodup_cons] at h
    by_cases hk : k = a
    · subst hk
      simp only [dictPop, if_pos rfl]
      exact dictGet_eq_none_iff.mpr h.1
    · simp only [dictPop, if_neg hk, dictGet, if_neg hk]
      exact ih h.2

theorem mem_dictKeys_dictUpdate {α β : Type} [DecidableEq α]
    {d : List (α × β)} {x a : α} {b : β} :
    x ∈ dictKeys (dictUpdate d a b) ↔ x ∈ dictKeys d ∨ x = a := by
  induction d with
  | nil => simp [dictUpdate, dictKeys]
  | cons p rest ih =>
    obtain ⟨k, v⟩ := p
    by_cases hk : k = a
    · subst hk
      rw [dictUpdate, if_pos rfl]
      simp only [dictKeys, List.map_cons, List.mem_cons] at ih ⊢
      tauto
    · rw [dictUpdate, if_neg hk]
      simp only [dictKeys, List.map_cons, List.mem_cons] at ih ⊢
      rw [ih]
      tauto

theorem nodup_dictKeys_dictUpdate {α β : Type} [DecidableEq α]
    {d : List (α × β)} (a : α) (b : β) (h : (dictKeys d).Nodup) :
    (dictKeys (dictUpdate d a b)).Nodup := by
  induction d with
  | nil => simp [dictUpdate, dictKeys]
  | cons p rest ih =>
    obtain ⟨k, v⟩ := p
    rw [dictKeys, List.map_cons, List.nodup_cons] at h
    by_cases hk : k = a
    · subst hk
      rw [dictUpdate, if_pos rfl, dictKeys, List.map_cons, List.nodup_cons]
      exact ⟨h.1, h.2⟩
    · rw [dictUpdate, if_neg hk, dictKeys, List.map_cons, List.nodup_cons]
      constructor
      · intro hmem
        rcases mem_dictKeys_dictUpdate.mp hmem with hm | hm
        · exact h.1 hm
        · exact hk hm
      · exact ih h.2

theorem dictKeys_dictPop_sublist {α β : Type} [DecidableEq α]
    (d : List (α × β)) (a : α) :
    (dictKeys (dictPop d a)).Sublist (dictKeys d) := by
  induction d with
  | nil => simp [dictPop]
  | cons p rest ih =>
    obtain ⟨k, v⟩ := p
    by_cases hk : k = a
    · simp only [dictPop, if_pos hk, dictKeys, List.map_cons]
      exact List.sublist_cons_of_sublist k (List.Sublist.refl _)
    · simp only [dictPop, if_neg hk, dictKeys, List.map_cons]
      exact List.Sublist.cons₂ k ih

theorem nodup_dictKeys_dictPop {α β : Type} [DecidableEq α]
    {d : List (α × β)} (a : α) (h : (dictKeys d).Nodup) :
    (dictKeys (dictPop d a)).Nodup :=
  (dictKeys_dictPop_sublist d a).nodup h

theorem dictUpdate_of_not_mem {α β : Type} [DecidableEq α]
    {d : List (α × β)} {a : α} (b : β) (h : a ∉ dictKeys d) :
    dictUpdate d a b = d ++ [(a, b)] := by
  induction d with
  | nil => simp [dictUpdate]
  | cons p rest ih =>
    obtain ⟨k, v⟩ := p
    rw [dictKeys, List.map_cons, List.mem_cons] at h
    push_neg at h
    rw [dictUpdate, if_neg (fun hk => h.1 hk.symm), ih h.2, List.cons_append]

/-! ## Claim C3 -/

/-- C3 counterexample: the claim says a segment with more than one `=` decodes
with everything after the first `=` as its value, so `"a=b=c"` should decode
to `a ↦ "b=c"`.  The code's `key, value = pair.split("=")` instead raises
`ValueError` (three parts cannot unpack into two variables). -/
theorem c3_counterexample :
    (parseInput (("a=b=c").data)).2 = Except.error PyError.valueError ∧
    (parseInput (("a=b=c").data)).2 ≠
      Except.ok [(("a").data, Value.str (("b=c").data))] := by
  decide

/-- C3 (amended): for every input line, Decode splits the line on `;` and
folds the segment loop over the pieces; a segment that strips to empty is
discarded; a segment with no `=` is a fatal formatting error; a segment with
two or more `=` is likewise fatal (the two-variable unpacking raises
`ValueError`); only a segment with exactly one `=` decodes, to the key before
the `=` mapped to the value after it (comma-split into a list when a comma is
present). -/
theorem c3_amended :
    (∀ data : Str, data ≠ [] →
      (parseInput data).2 = parseLoop (splitOn ';' data) []) ∧
    (∀ (segs : List Str) (res : Message) (seg : Str), pyStrip seg = [] →
      parseLoop (seg :: segs) res = parseLoop segs res) ∧
    (∀ (segs : List Str) (res : Message) (seg : Str), pyStrip seg ≠ [] →
      countC '=' (pyStrip seg) = 0 →
      parseLoop (seg :: segs) res = .error (.poorlyFormed (pyStrip seg))) ∧
    (∀ (segs : List Str) (res : Message) (seg : Str),
      2 ≤ countC '=' (pyStrip seg) →
      parseLoop (seg :: segs) res = .error .valueError) ∧
    (∀ (segs : List Str) (res : Message) (k v : Str),
      pyStrip (k ++ '=' :: v) = k ++ '=' :: v → '=' ∉ k → '=' ∉ v →
      parseLoop ((k ++ '=' :: v) :: segs) res =
        parseLoop segs (dictUpdate res k (mkValue v))) := by
  refine ⟨?_, ?_, ?_, ?_, ?_⟩
  · intro data h
    simp [parseInput, parseInputObj, pyLen, List.length_eq_zero, h]
  · intro segs res seg h
    simp [parseLoop, h]
  · intro segs res seg h1 h2
    have hnot : '=' ∉ pyStrip seg := countC_eq_zero.mp h2
    have hlen : ¬((pyStrip seg).length = 0) := by
      simpa [List.length_eq_zero] using h1
    simp only [parseLoop]
    rw [if_neg hlen, if_pos hnot]
  · intro segs res seg h
    have hm : '=' ∈ pyStrip seg := by
      by_contra hc
      rw [← countC_eq_zero] at hc
      omega
    have hlen : ¬((pyStrip seg).length = 0) := by
      simp only [List.length_eq_zero]
      intro hnil
      rw [hnil] at hm
      exact absurd hm (List.not_mem_nil '=')
    have hlen3 : 3 ≤ (splitOn '=' (pyStrip seg)).length := by
      rw [splitOn_length]
      omega
    simp only [parseLoop]
    rw [if_neg hlen, if_neg (fun hc => hc hm)]
    rcases hsp : splitOn '=' (pyStrip seg) with _ | ⟨a, _ | ⟨b, _ | ⟨c, t⟩⟩⟩
    all_goals simp_all
  · intro segs res k v hstrip hk hv
    have hm : '=' ∈ k ++ '=' :: v := List.mem_append.mpr (Or.inr (by simp))
    have hlen : ¬((k ++ '=' :: v).length = 0) := by simp
    simp only [parseLoop]
    rw [hstrip, if_neg hlen, if_neg (fun hc => hc hm),
      splitOn_append v hk, splitOn_of_not_mem hv]

/-- Witness for `c3_amended`: concrete instances of the two fatal-error
branches and of the exactly-one-`=` branch. -/
theorem c3_amended_witness :
    parseLoop [("x=1=2").data] [] = Except.error PyError.valueError ∧
    parseLoop [("a=b,c").data] [] =
      parseLoop [] (dictUpdate [] (("a").data) (mkValue (("b,c").data))) :=
  ⟨c3_amended.2.2.2.1 [] [] (("x=1=2").data) (by decide),
   c3_amended.2.2.2.2 [] [] (("a").data) (("b,c").data)
     (by decide) (by decide) (by decide)⟩

/-! ## Claim C4 -/

/-- C4: the claim says every non-string input is rejected with a diagnostic
and yields an empty Message, never raising past this boundary.  The code
calls `len(data)` before its `isinstance(data, str)` guard, so a non-string
without `__len__` (an int, `None`, a bool) raises `TypeError` before the
guard can run; only sized non-strings reach the diagnostic path. -/
theorem c4_failing_evaluation :
    parseInputObj (PyObj.int 5) = ([], Except.error PyError.typeError) ∧
    parseInputObj PyObj.noneObj = ([], Except.error PyError.typeError) ∧
    parseInputObj (PyObj.listObj 2) =
      ([(("[MSG]: Data with type '<class 'list'>' was passed instead of 'str'.").data)],
       Except.ok []) := by
  decide

/-! ## Claim C7 -/

/-- C7: the claim says `stop()` completes without raising in both outcomes.
On the failure path the code executes
`self.stderr.emit("Failed to disconnect sockets: \n", error)` — two arguments
to the one-argument `Signal(object)` — which raises `TypeError` in PySide6,
so `stop()` raises instead of emitting the error event.  The success path
behaves as claimed. -/
theorem c7_failing_evaluation :
    commStop true ⟨false, true, ("werr").data, ("rerr").data⟩ =
      Except.error PyError.typeError ∧
    commStop true ⟨true, true, [], []⟩ =
      Except.ok (false, [CommEvent.stdoutEv (("Sockets disconnected").data),
        CommEvent.stoppedEv]) := by
  decide

/-! ## Claim C1 -/

/-- C1 counterexample: with the write socket failing `waitForConnected(1000)`
but both sockets passing `isValid()`, `start()` emits the startup-failure
`stderr` event and then nevertheless sets `isActive` and emits `started`,
because the validity branch overrides the connection-test outcome.  The claim
says the Communicator remains inactive and emits no `started` in this case. -/
theorem c1_counterexample :
    (commStart ⟨false, true, ("werr").data, ("rerr").data, true, true⟩).1 = true ∧
    CommEvent.startedEv ∈
      (commStart ⟨false, true, ("werr").data, ("rerr").data, true, true⟩).2 ∧
    CommEvent.stderrEv
        ((("Failed to start connector, Sockets not properly primed.\n").data) ++
          ("Write Socket Failed to connect: ").data ++ ("werr").data) ∈
      (commStart ⟨false, true, ("werr").data, ("rerr").data, true, true⟩).2 := by
  decide

theorem startup_msg_ne_validity (ms : Str) :
    ("Failed to start connector, Sockets not properly primed.\n").data ++ ms ≠
      ("Sockets Failed Validity Test").data := by
  intro h
  have hA : ("Failed to start connector, Sockets not properly primed.\n").data =
      'F' :: ("ailed to start connector, Sockets not properly primed.\n").data := rfl
  have hB : ("Sockets Failed Validity Test").data =
      'S' :: ("ockets Failed Validity Test").data := rfl
  rw [hA, hB, List.cons_append] at h
  exact absurd (List.cons.inj h).1 (by decide)

/-- C1 (amended): `start()` reports a startup-failure `stderr` event exactly
when the connection wait fails, but the Communicator ends active and emits
`started` if and only if the secondary validity probe succeeds, regardless of
the connection-wait outcome; only a failed validity probe leaves it
inactive. -/
theorem c1_amended (env : CommEnv) :
    ((commStart env).1 = testSocketValidity env) ∧
    (CommEvent.startedEv ∈ (commStart env).2 ↔ testSocketValidity env = true) ∧
    (CommEvent.stderrEv
        ((("Failed to start connector, Sockets not properly primed.\n").data) ++
          (testConnections env).2) ∈ (commStart env).2 ↔
      (testConnections env).1 = false) := by
  cases hv : testSocketValidity env <;> cases hc : (testConnections env).1 <;>
    simp [commStart, hv, hc, startup_msg_ne_validity]

/-! ## Claim C2 -/

/-- C2 counterexample: a concrete successful run (both paths exist, solver
returns a ten-component tuple) writes eight artifacts, not the seven the
claim states: the `DATA` dict has seven data arrays (`c_save` … `p_save`)
plus `mesh_config`. -/
theorem c2_counterexample :
    WorkerEvent.printed (("j1").data) (("action=completed").data) ∈
      (workerRun ⟨("in").data, ("out").data, [("in").data, ("out").data], none,
        [.arrObj 0, .arrObj 1, .arrObj 2, .arrObj 3, .arrObj 4, .arrObj 5,
         .arrObj 6, .int 7, .int 8, .int 9], .arrObj 99⟩ (("j1").data)).2 ∧
    (workerRun ⟨("in").data, ("out").data, [("in").data, ("out").data], none,
      [.arrObj 0, .arrObj 1, .arrObj 2, .arrObj 3, .arrObj 4, .arrObj 5,
       .arrObj 6, .int 7, .int 8, .int 9], .arrObj 99⟩ (("j1").data)).1.length ≠ 7 := by
  decide

/-- C2 (amended): for every successful solver run, the Worker persists
exactly eight array artifacts — the seven data arrays `c_save`, `t_save`,
`w_save`, `v_save`, `regime_save`, `PSI_save`, `p_save` plus one combined
mesh-configuration record that also carries the elapsed time — one
`<name>.npy` file per named array in the output directory. -/
theorem c2_amended (env : WorkerEnv) (pid : Str)
    (r0 r1 r2 r3 r4 r5 r6 r7 r8 r9 : PyObj)
    (hin : env.inDir ∈ env.existing) (hout : env.outDir ∈ env.existing)
    (hserr : env.solverErr = none)
    (h0 : listGet env.solverRes 0 = .ok r0)
    (h1 : listGet env.solverRes 1 = .ok r1)
    (h2 : listGet env.solverRes 2 = .ok r2)
    (h3 : listGet env.solverRes 3 = .ok r3)
    (h4 : listGet env.solverRes 4 = .ok r4)
    (h5 : listGet env.solverRes 5 = .ok r5)
    (h6 : listGet env.solverRes 6 = .ok r6)
    (h7 : listGet env.solverRes 7 = .ok r7)
    (h8 : listGet env.solverRes 8 = .ok r8)
    (h9 : listGet env.solverRes 9 = .ok r9) :
    (workerRun env pid).1 =
      (workerData r0 r1 r2 r3 r4 r5 r6 r7 r8 r9 env.elapsed).map
        (fun kv => (joinPath env.outDir (kv.1 ++ (".npy").data), kv.2)) ∧
    (workerRun env pid).1.length = 8 := by
  have hrun : (workerRun env pid).1 =
      (workerData r0 r1 r2 r3 r4 r5 r6 r7 r8 r9 env.elapsed).map
        (fun kv => (joinPath env.outDir (kv.1 ++ (".npy").data), kv.2)) := by
    simp [workerRun, hin, hout, hserr, h0, h1, h2, h3, h4, h5, h6, h7, h8, h9,
      except_bind_ok]
  exact ⟨hrun, by rw [hrun]; simp [workerData]⟩

/-- Witness for `c2_amended` at a concrete successful run. -/
theorem c2_amended_witness :
    (workerRun ⟨("in").data, ("out").data, [("in").data, ("out").data], none,
      [.arrObj 0, .arrObj 1, .arrObj 2, .arrObj 3, .arrObj 4, .arrObj 5,
       .arrObj 6, .int 7, .int 8, .int 9], .arrObj 99⟩ (("j1").data)).1 =
      (workerData (.arrObj 0) (.arrObj 1) (.arrObj 2) (.arrObj 3) (.arrObj 4)
        (.arrObj 5) (.arrObj 6) (.int 7) (.int 8) (.int 9) (.arrObj 99)).map
        (fun kv => (joinPath (("out").data) (kv.1 ++ (".npy").data), kv.2)) ∧
    (workerRun ⟨("in").data, ("out").data, [("in").data, ("out").data], none,
      [.arrObj 0, .arrObj 1, .arrObj 2, .arrObj 3, .arrObj 4, .arrObj 5,
       .arrObj 6, .int 7, .int 8, .int 9], .arrObj 99⟩ (("j1").data)).1.length = 8 :=
  c2_amended ⟨("in").data, ("out").data, [("in").data, ("out").data], none,
      [.arrObj 0, .arrObj 1, .arrObj 2, .arrObj 3, .arrObj 4, .arrObj 5,
       .arrObj 6, .int 7, .int 8, .int 9], .arrObj 99⟩ (("j1").data)
    (.arrObj 0) (.arrObj 1) (.arrObj 2) (.arrObj 3) (.arrObj 4) (.arrObj 5)
    (.arrObj 6) (.int 7) (.int 8) (.int 9)
    (by decide) (by decide) (by decide) (by decide) (by decide) (by decide)
    (by decide) (by decide) (by decide) (by decide) (by decide) (by decide)
    (by decide)

/-! ## Claim C8 -/

/-- C8: killing an unregistered id never raises (`killThread` is total),
appends exactly one `[WARNING]`-level status line to the log, and leaves the
registry — and every other component of the supervisor state — unchanged. -/
theorem c8_kill_unknown (st : SupState) (tid : Pid)
    (h : dictGet st.threads tid = none) :
    killThread st tid =
      { st with log := st.log ++
          [logDataLine false (some (killWarnText tid)) true tid] } := by
  unfold killThread
  rw [h]

/-- Witness for `c8_kill_unknown` on the empty registry. -/
theorem c8_kill_unknown_witness :
    killThread initSup (some (("ghost").data)) =
      { initSup with log := initSup.log ++
          [logDataLine false (some (killWarnText (some (("ghost").data)))) true
            (some (("ghost").data))] } :=
  c8_kill_unknown initSup (some (("ghost").data)) rfl

/-! ## Claim C9 -/

/-- C9: delivering `finished` for a registered pid removes the job exactly
once (the registry drops the entry and its handle is released exactly once),
and a second delivery of the same `finished` event only logs again: it leaves
the registry, the released-handle list, and the action trace unchanged, and
raises nothing (`handleThreadFinished` is total). -/
theorem c9_finished_idempotent (st : SupState) (pid : Str)
    (hnod : (dictKeys st.threads).Nodup) :
    (∀ w : Worker, dictGet st.threads (some pid) = some w →
      (handleThreadFinished st pid).threads = dictPop st.threads (some pid) ∧
      (handleThreadFinished st pid).deleted = st.deleted ++ [w.handle]) ∧
    handleThreadFinished (handleThreadFinished st pid) pid =
      { handleThreadFinished st pid with
          log := (handleThreadFinished st pid).log ++
            [logDataLine false (some (finText pid)) true (some pid)] } := by
  cases hget : dictGet st.threads (some pid) with
  | none =>
    constructor
    · intro w hw
      exact Option.noConfusion hw
    · simp [handleThreadFinished, hget]
  | some w =>
    constructor
    · intro w' hw'
      obtain rfl : w = w' := Option.some.inj hw'
      simp [handleThreadFinished, hget]
    · have h2 : dictGet (dictPop st.threads (some pid)) (some pid) = none :=
        dictGet_dictPop_self hnod
      simp [handleThreadFinished, hget, h2]

/-- A one-job supervisor state used to witness `c9_finished_idempotent`. -/
def c9WitnessState : SupState :=
  { threads := [(some (("a").data), ⟨0, ("a").data⟩)], nextHandle := 1,
    terminated := [], deleted := [], trace := [], log := [] }

/-- Witness for `c9_finished_idempotent` on a registry holding one job. -/
theorem c9_finished_idempotent_witness :
    ((handleThreadFinished c9WitnessState (("a").data)).threads =
        dictPop c9WitnessState.threads (some (("a").data)) ∧
      (handleThreadFinished c9WitnessState (("a").data)).deleted =
        c9WitnessState.deleted ++ [(0 : Nat)]) ∧
    handleThreadFinished (handleThreadFinished c9WitnessState (("a").data))
        (("a").data) =
      { handleThreadFinished c9WitnessState (("a").data) with
          log := (handleThreadFinished c9WitnessState (("a").data)).log ++
            [logDataLine false (some (finText (("a").data))) true
              (some (("a").data))] } :=
  ⟨(c9_finished_idempotent c9WitnessState (("a").data) (by decide)).1
      ⟨0, ("a").data⟩ (by decide),
   (c9_finished_idempotent c9WitnessState (("a").data) (by decide)).2⟩

/-! ## Claim C6 -/

theorem dictGet_dictUpdate_ne {α β : Type} [DecidableEq α]
    {d : List (α × β)} {a a' : α} (b : β) (h : a ≠ a') :
    dictGet (dictUpdate d a' b) a = dictGet d a := by
  induction d with
  | nil => simp [dictUpdate, dictGet, Ne.symm h]
  | cons p rest ih =>
    obtain ⟨k, v⟩ := p
    by_cases hk : k = a'
    · subst hk
      simp [dictUpdate, dictGet, Ne.symm h]
    · by_cases hka : k = a
      · simp [dictUpdate, dictGet, hk, hka, h]
      · simp [dictUpdate, dictGet, hk, hka, ih]

theorem nodup_killThread (st : SupState) (tid : Pid)
    (h : (dictKeys st.threads).Nodup) :
    (dictKeys (killThread st tid).threads).Nodup := by
  cases hget : dictGet st.threads tid with
  | none =>
    simp only [killThread, hget]
    exact h
  | some w =>
    simp only [killThread, hget]
    exact nodup_dictKeys_dictPop tid h

theorem nodup_spawnThread (st : SupState) (tid : Pid)
    (h : (dictKeys st.threads).Nodup) :
    (dictKeys (spawnThread st tid).threads).Nodup := by
  by_cases hmem : tid ∈ dictKeys st.threads
  · cases hget : dictGet st.threads tid with
    | none =>
      simp only [spawnThread, killThread, hget, hmem, if_true]
      exact nodup_dictKeys_dictUpdate _ _ h
    | some w =>
      simp only [spawnThread, killThread, hget, hmem, if_true]
      exact nodup_dictKeys_dictUpdate _ _ (nodup_dictKeys_dictPop tid h)
  · simp only [spawnThread, hmem, if_false]
    exact nodup_dictKeys_dictUpdate _ _ h

theorem nodup_handleThreadFinished (st : SupState) (pid : Str)
    (h : (dictKeys st.threads).Nodup) :
    (dictKeys (handleThreadFinished st pid).threads).Nodup := by
  cases hget : dictGet st.threads (some pid) with
  | none =>
    simp only [handleThreadFinished, hget]
    exact h
  | some w =>
    simp only [handleThreadFinished, hget]
    exact nodup_dictKeys_dictPop _ h

theorem nodup_stepSup (st : SupState) (op : SupOp)
    (h : (dictKeys st.threads).Nodup) :
    (dictKeys (stepSup st op).threads).Nodup := by
  cases op with
  | start tid => exact nodup_spawnThread st tid h
  | kill tid => exact nodup_killThread st tid h
  | finish pid => exact nodup_handleThreadFinished st pid h

theorem nodup_runOps (ops : List SupOp) :
    ∀ st : SupState, (dictKeys st.threads).Nodup →
      (dictKeys (runOps st ops).threads).Nodup := by
  induction ops with
  | nil => intro st h; exact h
  | cons op ops ih =>
    intro st h
    rw [runOps, List.foldl_cons]
    exact ih (stepSup st op) (nodup_stepSup st op h)

/-- C6: after any sequence of start/kill/finished operations the registry
never holds two entries for the same id (its key list stays duplicate-free),
and a start command whose id is already registered first removes and
terminates the incumbent and only then registers the replacement — visible in
the recorded action order `removeJob, terminateJob, registerJob` — leaving
the id mapped to the freshly created worker. -/
theorem c6_registry :
    (∀ ops : List SupOp, (dictKeys (runOps initSup ops).threads).Nodup) ∧
    (∀ (st : SupState) (tid : Pid) (w : Worker),
      dictGet st.threads tid = some w →
      (spawnThread st tid).trace =
        st.trace ++ [SupAction.removeJob tid, SupAction.terminateJob w.handle,
          SupAction.registerJob tid st.nextHandle] ∧
      dictGet (spawnThread st tid).threads tid =
        some ⟨st.nextHandle, tid.getD (genPid st.nextHandle)⟩) := by
  constructor
  · intro ops
    exact nodup_runOps ops initSup (by simp [initSup, dictKeys])
  · intro st tid w hget
    have hmem : tid ∈ dictKeys st.threads := mem_dictKeys_of_dictGet hget
    constructor
    · simp [spawnThread, killThread, hmem, hget]
    · simp [spawnThread, killThread, hmem, hget, dictGet_dictUpdate_self]

/-- A supervisor state with `"x"` registered, witnessing `c6_registry`. -/
def c6WitnessState : SupState :=
  { threads := [(some (("x").data), ⟨3, ("x").data⟩)], nextHandle := 5,
    terminated := [], deleted := [], trace := [], log := [] }

/-- Witness for `c6_registry`: spawning over the registered id `"x"`. -/
theorem c6_registry_witness :
    (spawnThread c6WitnessState (some (("x").data))).trace =
      c6WitnessState.trace ++ [SupAction.removeJob (some (("x").data)),
        SupAction.terminateJob 3,
        SupAction.registerJob (some (("x").data)) c6WitnessState.nextHandle] ∧
    dictGet (spawnThread c6WitnessState (some (("x").data))).threads
        (some (("x").data)) =
      some ⟨c6WitnessState.nextHandle,
        (some (("x").data) : Pid).getD (genPid c6WitnessState.nextHandle)⟩ :=
  c6_registry.2 c6WitnessState (some (("x").data)) ⟨3, ("x").data⟩ (by decide)

/-! ## Claim C10 -/

/-- C10: a start command that omits the pid key registers the spawned job
under the key `None` while the created worker carries a freshly generated id
`g`; the worker's lifecycle signals are tagged with `g`, so a `finished`
event from it never matches the `None` registry entry (which survives), and
an `error` event from it makes `__handleThreadError` pop the unregistered key
`g`, raising `KeyError`. -/
theorem c10_none_pid (st : SupState) (e : PyError)
    (hfresh : some (genPid st.nextHandle) ∉ dictKeys st.threads) :
    dictGet (spawnThread st none).threads none =
      some ⟨st.nextHandle, genPid st.nextHandle⟩ ∧
    threadSignalPid ⟨st.nextHandle, genPid st.nextHandle⟩ =
      genPid st.nextHandle ∧
    dictGet (handleThreadFinished (spawnThread st none)
        (genPid st.nextHandle)).threads none =
      some ⟨st.nextHandle, genPid st.nextHandle⟩ ∧
    (handleThreadError (spawnThread st none) (genPid st.nextHandle) e).2 =
      .error (.keyError (some (genPid st.nextHandle))) := by
  have ha : dictGet (spawnThread st none).threads none =
      some ⟨st.nextHandle, genPid st.nextHandle⟩ := by
    by_cases hmem : (none : Pid) ∈ dictKeys st.threads
    · cases hget : dictGet st.threads none with
      | none => exact absurd (dictGet_eq_none_iff.mp hget) (not_not_intro hmem)
      | some w =>
        simp [spawnThread, killThread, hmem, hget, dictGet_dictUpdate_self]
    · simp [spawnThread, hmem, dictGet_dictUpdate_self]
  have hg : dictGet (spawnThread st none).threads
      (some (genPid st.nextHandle)) = none := by
    have hne : (some (genPid st.nextHandle) : Pid) ≠ none := by simp
    have hst : dictGet st.threads (some (genPid st.nextHandle)) = none :=
      dictGet_eq_none_iff.mpr hfresh
    by_cases hmem : (none : Pid) ∈ dictKeys st.threads
    · cases hget : dictGet st.threads none with
      | none => exact absurd (dictGet_eq_none_iff.mp hget) (not_not_intro hmem)
      | some w =>
        simp [spawnThread, killThread, hmem, hget,
          dictGet_dictUpdate_ne _ hne, dictGet_dictPop_ne hne, hst]
    · simp [spawnThread, hmem, dictGet_dictUpdate_ne _ hne, hst]
  refine ⟨ha, rfl, ?_, ?_⟩
  · simp only [handleThreadFinished, hg]
    exact ha
  · simp only [handleThreadError, hg]

/-- Witness for `c10_none_pid` from the initial (empty) registry. -/
theorem c10_none_pid_witness :
    dictGet (spawnThread initSup none).threads none =
      some ⟨initSup.nextHandle, genPid initSup.nextHandle⟩ ∧
    threadSignalPid ⟨initSup.nextHandle, genPid initSup.nextHandle⟩ =
      genPid initSup.nextHandle ∧
    dictGet (handleThreadFinished (spawnThread initSup none)
        (genPid initSup.nextHandle)).threads none =
      some ⟨initSup.nextHandle, genPid initSup.nextHandle⟩ ∧
    (handleThreadError (spawnThread initSup none) (genPid initSup.nextHandle)
        PyError.valueError).2 =
      .error (.keyError (some (genPid initSup.nextHandle))) :=
  c10_none_pid initSup PyError.valueError (by decide)

/-! ## Claim C5 -/

/-- C5 counterexample: the singleton-list value `["a"]` — non-empty and free
of all reserved characters — encodes to `k=a;`, whose value contains no
comma, so Decode returns the scalar `"a"` and the round-trip fails. -/
theorem c5_counterexample :
    (parseInput (encode [(("k").data, Value.list [("a").data])])).2 ≠
      Except.ok [(("k").data, Value.list [("a").data])] ∧
    (parseInput (encode [(("k").data, Value.list [("a").data])])).2 =
      Except.ok [(("k").data, Value.str (("a").data))] := by
  decide

/-- A string free of the reserved wire characters `;`, `=`, `,`
(the claim's hypothesis on keys and values). -/
def reservedFree (s : Str) : Bool :=
  decide (';' ∉ s) && decide ('=' ∉ s) && decide (',' ∉ s)

/-- A key admissible for the round-trip: non-empty, reserved-free, and not
starting with whitespace (otherwise the segment strip removes it). -/
def goodKey (s : Str) : Bool :=
  decide (s ≠ []) && reservedFree s && headOk s

/-- A value admissible for the round-trip: scalars are non-empty,
reserved-free and do not end with whitespace; list values have at least two
elements (a shorter comma-join decodes as a scalar), each non-empty,
reserved-free and not ending with whitespace. -/
def goodValue : Value → Bool
  | .str s => decide (s ≠ []) && reservedFree s && lastOk s
  | .list l => decide (2 ≤ l.length) &&
      l.all (fun s => decide (s ≠ []) && reservedFree s && lastOk s)

theorem goodKey_spec {s : Str} (h : goodKey s = true) :
    s ≠ [] ∧ ';' ∉ s ∧ '=' ∉ s ∧ ',' ∉ s ∧ headOk s = true := by
  simp only [goodKey, reservedFree, Bool.and_eq_true, decide_eq_true_eq] at h
  tauto

theorem goodValueStr_spec {s : Str} (h : goodValue (.str s) = true) :
    s ≠ [] ∧ ';' ∉ s ∧ '=' ∉ s ∧ ',' ∉ s ∧ lastOk s = true := by
  simp only [goodValue, reservedFree, Bool.and_eq_true, decide_eq_true_eq] at h
  tauto

theorem goodValueList_spec {l : List Str} (h : goodValue (.list l) = true) :
    2 ≤ l.length ∧
      ∀ s ∈ l, s ≠ [] ∧ ';' ∉ s ∧ '=' ∉ s ∧ ',' ∉ s ∧ lastOk s = true := by
  simp only [goodValue, reservedFree, Bool.and_eq_true, decide_eq_true_eq,
    List.all_eq_true] at h
  refine ⟨h.1, fun s hs => ?_⟩
  have := h.2 s hs
  tauto

theorem headOk_append (k b : Str) (h : k ≠ []) :
    headOk (k ++ b) = headOk k := by
  cases k with
  | nil => exact absurd rfl h
  | cons c t => rfl

theorem lastOk_append (a b : Str) (h : b ≠ []) :
    lastOk (a ++ b) = lastOk b := by
  unfold lastOk
  rw [List.reverse_append]
  exact headOk_append b.reverse a.reverse (by simpa using h)

theorem joinComma_ne_nil {l : List Str} (hl : l ≠ [])
    (h : ∀ s ∈ l, s ≠ []) : joinComma l ≠ [] := by
  cases l with
  | nil => exact absurd rfl hl
  | cons x xs =>
    cases xs with
    | nil => exact h x (by simp)
    | cons y rest =>
      rw [joinComma_cons_cons]
      simp

theorem lastOk_joinComma {l : List Str} (hl : l ≠ [])
    (h : ∀ s ∈ l, s ≠ [] ∧ lastOk s = true) :
    lastOk (joinComma l) = true := by
  induction l with
  | nil => exact absurd rfl hl
  | cons x xs ih =>
    cases xs with
    | nil => exact (h x (by simp)).2
    | cons y rest =>
      rw [joinComma_cons_cons]
      rw [lastOk_append x (',' :: joinComma (y :: rest)) (by simp)]
      have hjne : joinComma (y :: rest) ≠ [] :=
        joinComma_ne_nil (by simp) (fun s hs => (h s (by simp [hs])).1)
      have hcons : (',' :: joinComma (y :: rest) : Str) =
          [','] ++ joinComma (y :: rest) := rfl
      rw [hcons, lastOk_append [','] (joinComma (y :: rest)) hjne]
      exact ih (by simp) (fun s hs => h s (by simp [hs]))

theorem encodeValue_no_semi {v : Value} (hv : goodValue v = true) :
    ';' ∉ encodeValue v := by
  cases v with
  | str s => exact (goodValueStr_spec hv).2.1
  | list l =>
    intro hmem
    rcases mem_joinComma hmem with hc | ⟨s, hsl, hcs⟩
    · exact absurd hc (by decide)
    · exact ((goodValueList_spec hv).2 s hsl).2.1 hcs

theorem encodeValue_no_eq {v : Value} (hv : goodValue v = true) :
    '=' ∉ encodeValue v := by
  cases v with
  | str s => exact (goodValueStr_spec hv).2.2.1
  | list l =>
    intro hmem
    rcases mem_joinComma hmem with hc | ⟨s, hsl, hcs⟩
    · exact absurd hc (by decide)
    · exact ((goodValueList_spec hv).2 s hsl).2.2.1 hcs

theorem encodeValue_ne_nil {v : Value} (hv : goodValue v = true) :
    encodeValue v ≠ [] := by
  cases v with
  | str s => exact (goodValueStr_spec hv).1
  | list l =>
    have hsp := goodValueList_spec hv
    have hlne : l ≠ [] := by
      intro hh
      rw [hh] at hsp
      simp at hsp
    exact joinComma_ne_nil hlne (fun s hs => (hsp.2 s hs).1)

theorem encodeValue_lastOk {v : Value} (hv : goodValue v = true) :
    lastOk (encodeValue v) = true := by
  cases v with
  | str s => exact (goodValueStr_spec hv).2.2.2.2
  | list l =>
    have hsp := goodValueList_spec hv
    have hlne : l ≠ [] := by
      intro hh
      rw [hh] at hsp
      simp at hsp
    exact lastOk_joinComma hlne
      (fun s hs => ⟨(hsp.2 s hs).1, (hsp.2 s hs).2.2.2.2⟩)

theorem mkValue_encodeValue {v : Value} (hv : goodValue v = true) :
    mkValue (encodeValue v) = v := by
  cases v with
  | str s =>
    have hsp := goodValueStr_spec hv
    simp [encodeValue, mkValue, hsp.2.2.2.1]
  | list l =>
    have hsp := goodValueList_spec hv
    have hlne : l ≠ [] := by
      intro hh
      rw [hh] at hsp
      simp at hsp
    have hcm : ',' ∈ joinComma l := comma_mem_joinComma hsp.1
    simp only [encodeValue, mkValue, if_pos hcm]
    rw [splitOn_joinComma hlne (fun s hs => (hsp.2 s hs).2.2.2.1)]

theorem encode_cons (p : Str × Value) (m : Message) :
    encode (p :: m) = encodePair p ++ encode m := rfl

theorem parseLoop_encode (m : Message) :
    ∀ res : Message,
      (∀ p ∈ m, goodKey p.1 = true ∧ goodValue p.2 = true) →
      (dictKeys m).Nodup →
      (∀ p ∈ m, p.1 ∉ dictKeys res) →
      parseLoop (splitOn ';' (encode m)) res = .ok (res ++ m) := by
  induction m with
  | nil =>
    intro res _ _ _
    simp [encode, splitOn, splitOnAux, parseLoop, pyStrip]
  | cons p m' ih =>
    obtain ⟨k, v⟩ := p
    intro res hgood hnod hdisj
    obtain ⟨hk, hv⟩ := hgood (k, v) (List.mem_cons_self _ _)
    obtain ⟨hkne, hksemi, hkeq, hkcomma, hkhead⟩ := goodKey_spec hk
    have hevne : encodeValue v ≠ [] := encodeValue_ne_nil hv
    have hsplit : splitOn ';' (encode ((k, v) :: m')) =
        (k ++ '=' :: encodeValue v) :: splitOn ';' (encode m') := by
      have hform : encode ((k, v) :: m') =
          (k ++ '=' :: encodeValue v) ++ ';' :: encode m' := by
        rw [encode_cons]
        simp [encodePair, List.append_assoc]
      rw [hform]
      refine splitOn_append _ ?_
      intro hmem
      rcases List.mem_append.mp hmem with h1 | h1
      · exact hksemi h1
      · rcases List.mem_cons.mp h1 with h2 | h2
        · exact absurd h2 (by decide)
        · exact encodeValue_no_semi hv h2
    have hstrip : pyStrip (k ++ '=' :: encodeValue v) =
        k ++ '=' :: encodeValue v := by
      apply pyStrip_eq_self
      · rw [headOk_append k ('=' :: encodeValue v) hkne]
        exact hkhead
      · have h1 : lastOk (k ++ '=' :: encodeValue v) =
            lastOk ('=' :: encodeValue v) :=
          lastOk_append k ('=' :: encodeValue v) (by simp)
        have hcons : ('=' :: encodeValue v : Str) = ['='] ++ encodeValue v := rfl
        rw [h1, hcons, lastOk_append ['='] (encodeValue v) hevne]
        exact encodeValue_lastOk hv
    have hlen : ¬((k ++ '=' :: encodeValue v : Str).length = 0) := by simp
    have hmemeq : '=' ∈ k ++ '=' :: encodeValue v :=
      List.mem_append.mpr (Or.inr (List.mem_cons_self _ _))
    have hsplitEq : splitOn '=' (k ++ '=' :: encodeValue v) =
        [k, encodeValue v] := by
      rw [splitOn_append (encodeValue v) hkeq,
        splitOn_of_not_mem (encodeValue_no_eq hv)]
    rw [hsplit]
    simp only [parseLoop]
    rw [hstrip, if_neg hlen, if_neg (fun hc => hc hmemeq), hsplitEq]
    show parseLoop (splitOn ';' (encode m'))
        (dictUpdate res k (mkValue (encodeValue v))) = .ok (res ++ (k, v) :: m')
    rw [mkValue_encodeValue hv,
      dictUpdate_of_not_mem v (hdisj (k, v) (List.mem_cons_self _ _))]
    rw [dictKeys, List.map_cons, List.nodup_cons] at hnod
    have hgood' : ∀ q ∈ m', goodKey q.1 = true ∧ goodValue q.2 = true :=
      fun q hq => hgood q (List.mem_cons_of_mem _ hq)
    have hdisj' : ∀ q ∈ m', q.1 ∉ dictKeys (res ++ [(k, v)]) := by
      intro q hq hmem
      rw [dictKeys, List.map_append] at hmem
      rcases List.mem_append.mp hmem with h1 | h1
      · exact hdisj q (List.mem_cons_of_mem _ hq) h1
      · have hqk : q.1 = k := by simpa using h1
        have hqmem : q.1 ∈ List.map Prod.fst m' :=
          List.mem_map_of_mem Prod.fst hq
        rw [hqk] at hqmem
        exact hnod.1 hqmem
    rw [ih (res ++ [(k, v)]) hgood' hnod.2 hdisj']
    simp

/-- C5 (amended): for every Message `m` with pairwise-distinct keys whose
keys and values (including every element of list values) are non-empty and
free of the reserved characters `;`, `=`, `,`, and additionally whose keys do
not start with whitespace, whose values do not end with whitespace (the
segment strip would drop either), and whose list values have at least two
elements (a singleton or empty list encodes without a comma and decodes as a
scalar), `Decode(Encode(m)) = m`. -/
theorem c5_amended (m : Message) (hnod : (dictKeys m).Nodup)
    (hm : ∀ p ∈ m, goodKey p.1 = true ∧ goodValue p.2 = true) :
    (parseInput (encode m)).2 = .ok m := by
  cases m with
  | nil => rfl
  | cons p m' =>
    obtain ⟨k, v⟩ := p
    have hkne : k ≠ [] := (goodKey_spec (hm (k, v) (List.mem_cons_self _ _)).1).1
    have henc : encode ((k, v) :: m') ≠ [] := by
      rw [encode_cons]
      simp [encodePair]
    have hstep : (parseInput (encode ((k, v) :: m'))).2 =
        parseLoop (splitOn ';' (encode ((k, v) :: m'))) [] := by
      simp [parseInput, parseInputObj, pyLen, List.length_eq_zero, henc]
    rw [hstep, parseLoop_encode ((k, v) :: m') [] hm hnod
      (by simp [dictKeys])]
    simp

/-- Witness for `c5_amended` on a two-pair Message with one scalar and one
two-element list value. -/
theorem c5_amended_witness :
    (parseInput (encode [(("a").data, Value.str (("1").data)),
      (("b").data, Value.list [("2").data, ("3").data])])).2 =
      Except.ok [(("a").data, Value.str (("1").data)),
        (("b").data, Value.list [("2").data, ("3").data])] :=
  c5_amended [(("a").data, Value.str (("1").data)),
    (("b").data, Value.list [("2").data, ("3").data])] (by decide) (by decide)
